import Mathlib

/-!
Verification development for the `kv` repository (Azure Key Vault TUI CLI).

The Go sources are shallowly embedded as executable Lean definitions:

* Go strings are byte sequences; we model them as `List Nat` (one `Nat` per
  byte, always < 256 in practice).  All concrete inputs used below are ASCII,
  so `Char.toNat` of each character is exactly its UTF-8 byte.
* Go `int` values are modelled as `Int` (no overflow is reachable at the
  sizes involved); loop indices that are provably non-negative use `Nat`.
* The possibly non-terminating wrap loop of `wrapLine` is modelled with
  explicit fuel; a terminating run is independent of the fuel once the fuel
  exceeds the iteration count, which is proved for positive widths.
* Terminal styling (lipgloss `Render`) only decorates text with ANSI codes
  and padding and never inserts newlines; the renderers are therefore
  modelled as producing structured lines (gutter data + content bytes)
  instead of styled strings.
-/

/-- A Go string: a sequence of bytes. -/
abbrev GoStr := List Nat

/-- Bytes of an ASCII literal (every character below U+0080, so `Char.toNat`
is the UTF-8 byte). Used only to write concrete test inputs readably. -/
def bytes (s : String) : GoStr := s.toList.map Char.toNat

/-- Go `strings.Split(s, sep)` for a single-byte separator:
splits `s` on every occurrence of `sep`; the empty string splits to `[[]]`,
and a trailing separator yields a trailing empty field (Go semantics). -/
def splitOnByte (sep : Nat) : GoStr → List GoStr
  | [] => [[]]
  | b :: bs =>
    if b = sep then [] :: splitOnByte sep bs
    else
      match splitOnByte sep bs with
      | l :: ls => (b :: l) :: ls
      | [] => [[b]]

/-- `strings.Split(text, "\n")` as used by both renderers (byte 10 = LF). -/
def splitLines (s : GoStr) : List GoStr := splitOnByte 10 s

/-! ## DiffEngine: `computeDiff` (cmd/kv, package difftui) -/

/-- The Go struct `diffLine` from the difftui package:
`{lineNum int; content string; isDiff bool; isAdded bool}`. -/
structure diffLine where
  lineNum : Nat
  content : GoStr
  isDiff : Bool
  isAdded : Bool
deriving DecidableEq

instance : Inhabited diffLine := ⟨⟨0, [], false, false⟩⟩

/-- Body of the `computeDiff` loop at index `i`: the pair of entries appended
to the left and right slices.  Mirrors the source: `oldLine`/`newLine`
default to the empty string when the index is past the corresponding slice;
`isDifferent := oldLine != newLine`; the left entry carries
`isDiff := isDifferent`, the right entry carries
`isDiff := isDifferent && oldLine != ""` and `isAdded := oldLine == ""`;
a side whose slice is exhausted gets the placeholder `{0, "", false, false}`. -/
def computeDiffAt (oldLines newLines : List GoStr) (i : Nat) : diffLine × diffLine :=
  let oldLine := oldLines.getD i []
  let newLine := newLines.getD i []
  let isDifferent : Bool := oldLine ≠ newLine
  let left :=
    if i < oldLines.length then
      diffLine.mk (i + 1) oldLine isDifferent false
    else
      diffLine.mk 0 [] false false
  let right :=
    if i < newLines.length then
      diffLine.mk (i + 1) newLine (isDifferent && decide (oldLine ≠ [])) (decide (oldLine = []))
    else
      diffLine.mk 0 [] false false
  (left, right)

/-- `computeDiff(oldLines, newLines)` from the difftui package: iterates
`i` over `[0, max(len(oldLines), len(newLines)))` appending one entry per
side per position. -/
def computeDiff (oldLines newLines : List GoStr) : List diffLine × List diffLine :=
  let maxLen := max oldLines.length newLines.length
  ((List.range maxLen).map fun i => (computeDiffAt oldLines newLines i).1,
   (List.range maxLen).map fun i => (computeDiffAt oldLines newLines i).2)

/-- `Compare` of the spec: `updateViewportContent` splits both values on
newlines and hands them to `computeDiff`. -/
def Compare (oldText newText : GoStr) : List diffLine × List diffLine :=
  computeDiff (splitLines oldText) (splitLines newText)

/-- The classification a diff entry receives, read off from the marker and
style branches of `renderDiffLines`. -/
inductive DiffClass where
  | unchanged
  | removed
  | added
  | changed
  | placeholder
deriving DecidableEq

/-- Classification of a left-pane entry, from `renderDiffLines` with
`isLeft = true`: `lineNum == 0` renders the blank placeholder row; an entry
with `isDiff` renders the removed marker and style; otherwise unchanged. -/
def leftClass (d : diffLine) : DiffClass :=
  if d.lineNum = 0 then .placeholder
  else if d.isDiff then .removed
  else .unchanged

/-- Classification of a right-pane entry, from `renderDiffLines` with
`isLeft = false`: placeholder when `lineNum == 0`; else the added marker when
`isAdded`, else the changed marker when `isDiff`, else unchanged. -/
def rightClass (d : diffLine) : DiffClass :=
  if d.lineNum = 0 then .placeholder
  else if d.isAdded then .added
  else if d.isDiff then .changed
  else .unchanged

/-! ## Line wrapping: `wrapLine`

The function `wrapLine` appears with identical bodies in
`internal/tui/model.go` and in the difftui package (cmd/kv); it is modelled
once.  The width parameter is a Go `int` and is kept as `Int`.  The
`for len(remaining) > 0` loop does not terminate for every input (see the
C6 theorems), so it is modelled with explicit fuel; `.fuelOut` means the
modelled run was cut off, `.panicked` models the Go runtime panic raised by
the slice expression `remaining[:breakPoint]` for a negative `breakPoint`. -/

/-- The break-point search inside `wrapLine`:
`for i := width; i > width-20 && i > 0; i--` looking for a space byte at
`remaining[i]`, defaulting to `width`.  The loop runs at most 20 times;
`steps` counts the iterations still permitted (called with 20). -/
def findBreak (remaining : GoStr) (width : Int) : Int :=
  go width 20
where
  go (i : Int) : Nat → Int
    | 0 => width
    | steps + 1 =>
      if i > width - 20 ∧ i > 0 then
        if i < (remaining.length : Int) ∧ remaining.getD i.toNat 0 = 32 then i
        else go (i - 1) steps
      else width

/-- Go `strings.TrimLeft(s, " ")`: drop leading space bytes. -/
def trimLeftSpaces : GoStr → GoStr
  | [] => []
  | b :: bs => if b = 32 then trimLeftSpaces bs else b :: bs

/-- Result of a fuelled run of the `wrapLine` loop. -/
inductive WrapOutcome where
  | ok (segs : List GoStr)
  | panicked
  | fuelOut
deriving DecidableEq

/-- The `for len(remaining) > 0` loop of `wrapLine`.  One fuel unit is one
iteration.  Each iteration: exit with the remainder once it fits in `width`;
otherwise compute the break point (re-assigned to `width` if it reaches past
the remainder — only possible straight from the source text, never here,
since the search never exceeds `width < len(remaining)`), emit
`remaining[:breakPoint]` and continue with the trimmed `remaining[breakPoint:]`.
A negative break point makes the Go slice expression panic. -/
def wrapLineLoop (width : Int) : Nat → GoStr → WrapOutcome
  | 0, _ => .fuelOut
  | fuel + 1, remaining =>
    if remaining = [] then .ok []
    else if (remaining.length : Int) ≤ width then .ok [remaining]
    else
      let bp0 := findBreak remaining width
      let bp := if bp0 ≥ (remaining.length : Int) then width else bp0
      if bp < 0 then .panicked
      else
        match wrapLineLoop width fuel (trimLeftSpaces (remaining.drop bp.toNat)) with
        | .ok segs => .ok (remaining.take bp.toNat :: segs)
        | r => r

/-- `wrapLine(line, width)`: returns `[line]` unchanged when it fits,
otherwise runs the wrapping loop (with the given fuel). -/
def wrapLine (line : GoStr) (width : Int) (fuel : Nat) : WrapOutcome :=
  if (line.length : Int) ≤ width then .ok [line]
  else wrapLineLoop width fuel line

/-- The modelled `wrapLine` run is cut off at every fuel: the source loop
never terminates on this input. -/
def wrapLineDiverges (line : GoStr) (width : Int) : Prop :=
  ∀ fuel : Nat, wrapLine line width fuel = .fuelOut

/-- Total wrapper used by the renderer models: runs `wrapLine` with fuel
`len(line) + 1`, which is shown sufficient for every positive width
(`wrapLine_pos_ok`); outside that region the renderers inherit the
pathology, which is treated separately (claim C6). -/
def wrapLineTotal (line : GoStr) (width : Int) : List GoStr :=
  match wrapLine line width (line.length + 1) with
  | .ok segs => segs
  | _ => []

/-! ## Browse renderer: `wrapTextWithLineNumbers` (internal/tui/model.go) -/

/-- One rendered line of the browse pane: an optional gutter line number
(present only on the first wrapped segment of a source line, per the
`i == 0` branch) and the segment's content bytes.  ANSI styling is cosmetic
and not modelled. -/
abbrev NumberedLine := Option Nat × GoStr

/-- Rendering of one wrapped source line: the first segment carries the line
number, continuation segments a blank gutter. -/
def renderWrapped (lineNum : Nat) (segs : List GoStr) : List NumberedLine :=
  match segs with
  | [] => []
  | s :: rest => (some lineNum, s) :: rest.map fun t => ((none : Option Nat), t)

/-- The per-line loop of `wrapTextWithLineNumbers`: an empty source line
emits one numbered blank row; a non-empty one emits its wrapped segments;
`lineNum` advances by one per source line either way. -/
def wrapTextGo (width : Int) : Nat → List GoStr → List NumberedLine
  | _, [] => []
  | lineNum, line :: rest =>
    if line = [] then (some lineNum, ([] : GoStr)) :: wrapTextGo width (lineNum + 1) rest
    else renderWrapped lineNum (wrapLineTotal line width) ++ wrapTextGo width (lineNum + 1) rest

/-- `wrapTextWithLineNumbers(text, width)` from internal/tui/model.go:
substitutes the fallback width 40 when `width <= 0`, splits the text on
newlines and renders each line with a number gutter.  (The final
`strings.TrimRight(..., "\n")` only normalises the assembled string and is
invisible in this structured output.) -/
def wrapTextWithLineNumbers (text : GoStr) (width0 : Int) : List NumberedLine :=
  let width := if width0 ≤ 0 then 40 else width0
  wrapTextGo width 1 (splitLines text)

/-! ## Terminal widget: the bubbles viewport

Both TUIs scroll through a `viewport.Model` from charmbracelet/bubbles.
Only its scroll state matters here; it is modelled by its documented
semantics: `YOffset` is always clamped into `[0, maxYOffset]` where
`maxYOffset = max(0, len(lines) - height)`, and `SetContent` snaps to the
bottom when the current offset points past the new content. -/

/-- Key inputs the two `Update` functions distinguish (plus `other` for any
key neither switch matches). -/
inductive Key where
  | up | k | down | j | pgup | pgdn | ctrlB | ctrlF
  | esc | q | n | nCap | y | yCap | enter | ctrlC
  | left | h | right | l
  | other
deriving DecidableEq

/-- The scroll state of a bubbles `viewport.Model`, with its content held as
structured lines of type `α` (one element per newline-separated line of the
string handed to `SetContent`). -/
structure Viewport (α : Type) where
  width : Int
  height : Int
  yOffset : Int
  lines : List α
deriving DecidableEq

/-- `viewport.New(width, height)`: fresh viewport, no content, offset 0.
Also the Go zero value the models start from. -/
def Viewport.new (w hgt : Int) : Viewport α := ⟨w, hgt, 0, []⟩

/-- `maxYOffset() = max(0, len(lines) - height)`. -/
def Viewport.maxYOffset (v : Viewport α) : Int :=
  max 0 ((v.lines.length : Int) - v.height)

/-- `SetYOffset(n)` clamps into `[0, maxYOffset]`. -/
def Viewport.setYOffset (v : Viewport α) (off : Int) : Viewport α :=
  { v with yOffset := max 0 (min off v.maxYOffset) }

/-- `AtTop()`. -/
def Viewport.atTop (v : Viewport α) : Prop := v.yOffset ≤ 0

/-- `AtBottom()`. -/
def Viewport.atBottom (v : Viewport α) : Prop := v.yOffset ≥ v.maxYOffset

instance (v : Viewport α) : Decidable v.atTop := by unfold Viewport.atTop; infer_instance
instance (v : Viewport α) : Decidable v.atBottom := by unfold Viewport.atBottom; infer_instance

/-- `LineDown(n)`. -/
def Viewport.lineDown (v : Viewport α) (cnt : Int) : Viewport α :=
  if v.atBottom ∨ cnt = 0 ∨ v.lines.length = 0 then v else v.setYOffset (v.yOffset + cnt)

/-- `LineUp(n)`. -/
def Viewport.lineUp (v : Viewport α) (cnt : Int) : Viewport α :=
  if v.atTop ∨ cnt = 0 ∨ v.lines.length = 0 then v else v.setYOffset (v.yOffset - cnt)

/-- `ViewDown()`: page down by one viewport height. -/
def Viewport.viewDown (v : Viewport α) : Viewport α :=
  if v.atBottom then v else v.lineDown v.height

/-- `ViewUp()`. -/
def Viewport.viewUp (v : Viewport α) : Viewport α :=
  if v.atTop then v else v.lineUp v.height

/-- `GotoTop()`. -/
def Viewport.gotoTop (v : Viewport α) : Viewport α := v.setYOffset 0

/-- `GotoBottom()`. -/
def Viewport.gotoBottom (v : Viewport α) : Viewport α := v.setYOffset v.maxYOffset

/-- `SetContent(s)`: replace the lines; if the old offset points past the
last new line, snap to the bottom. -/
def Viewport.setContent (v : Viewport α) (ls : List α) : Viewport α :=
  let v2 := { v with lines := ls }
  if v.yOffset > (ls.length : Int) - 1 then v2.gotoBottom else v2

/-- `viewport.Model.Update` on a key message, restricted to the default key
map bindings relevant here: down/j and up/k scroll one line, pgup/pgdown one
page.  `ctrl+b`/`ctrl+f` are not bound in the default viewport key map, so
the viewport ignores them (the difftui wrapper still forwards them). -/
def Viewport.update (v : Viewport α) (key : Key) : Viewport α :=
  match key with
  | .down | .j => v.lineDown 1
  | .up | .k => v.lineUp 1
  | .pgdn => v.viewDown
  | .pgup => v.viewUp
  | _ => v

/-- Bubble Tea messages processed by the two models. -/
inductive Msg where
  | key (key : Key)
  | resize (w hgt : Int)

/-! ## ReviewSession: the difftui model (cmd/kv, package difftui) -/

namespace difftui

/-- The gutter marker `renderDiffLines` writes in front of a rendered line:
`" - "` (removed), `" + "` (added), `" ~ "` (changed), `" │ "` (bar, used
for unchanged rows and the placeholder row), or the three-space continuation
gutter of a wrapped segment. -/
inductive Marker where
  | removed | added | changed | bar | cont
deriving DecidableEq

/-- One rendered row of a diff pane: optional gutter line number, marker,
and content bytes (ANSI styling not modelled). -/
abbrev RLine := Option Nat × Marker × GoStr

/-- Marker chosen for the first wrapped segment of a diff entry, following
the branch order of the source: left and `isDiff` gives the removed marker;
right and `isAdded` the added one; right and `isDiff` the changed one;
otherwise the plain bar. -/
def firstMarker (d : diffLine) (isLeft : Bool) : Marker :=
  if isLeft && d.isDiff then .removed
  else if !isLeft && d.isAdded then .added
  else if !isLeft && d.isDiff then .changed
  else .bar

/-- `renderDiffLines(lines, width, isLeft)`: a placeholder entry
(`lineNum == 0`) renders one blank bar row; any other entry renders its
wrapped segments, the first with the line number and marker, continuations
with a blank gutter. -/
def renderDiffLines : List diffLine → Int → Bool → List RLine
  | [], _, _ => []
  | d :: rest, width, isLeft =>
    (if d.lineNum = 0 then [((none : Option Nat), Marker.bar, ([] : GoStr))]
     else
       match wrapLineTotal d.content width with
       | [] => []
       | s :: tail =>
         (some d.lineNum, firstMarker d isLeft, s) ::
           tail.map fun t => ((none : Option Nat), Marker.cont, t))
      ++ renderDiffLines rest width isLeft

/-- The blank row a pane shows when the assembled content string is empty
(splitting `""` on newlines yields one empty line). -/
def blankRow : RLine := ((none : Option Nat), Marker.bar, ([] : GoStr))

/-- String round-trip of `SetContent`: a non-empty rendered row list passes
through unchanged; an empty one becomes a single empty line. -/
def contentRows (rows : List RLine) : List RLine :=
  if rows = [] then [blankRow] else rows

/-- The difftui `Model` struct. -/
structure Model where
  oldValue : GoStr
  newValue : GoStr
  secretName : GoStr
  leftViewport : Viewport RLine
  rightViewport : Viewport RLine
  ready : Bool
  width : Int
  height : Int
  confirmed : Bool
  cancelled : Bool
deriving DecidableEq

/-- `NewModel(oldValue, newValue, secretName)`: all other fields start at
their Go zero values. -/
def NewModel (oldValue newValue secretName : GoStr) : Model :=
  ⟨oldValue, newValue, secretName, Viewport.new 0 0, Viewport.new 0 0,
    false, 0, 0, false, false⟩

/-- `updateViewportContent`: compute the diff of the two values and set each
pane's content to its rendered side, wrapped at `leftViewport.Width - 10`. -/
def updateViewportContent (m : Model) : Model :=
  let maxWidth := m.leftViewport.width - 10
  let oldLines := splitLines m.oldValue
  let newLines := splitLines m.newValue
  let d := computeDiff oldLines newLines
  let oldContent := renderDiffLines d.1 maxWidth true
  let newContent := renderDiffLines d.2 maxWidth false
  { m with
    leftViewport := m.leftViewport.setContent (contentRows oldContent)
    rightViewport := m.rightViewport.setContent (contentRows newContent) }

/-- The keys of the vertical-scroll branches of `Model.Update`
(`up,k`, `down,j`, `pgup,ctrl+b`, `pgdown,ctrl+f`). -/
def scrollKeys : List Key :=
  [.up, .k, .down, .j, .pgup, .ctrlB, .pgdn, .ctrlF]

/-- `Model.Update`.  Cancel keys set `cancelled`, confirm keys `confirmed`
(both then quit); each scroll key updates the left viewport and then forces
the right viewport's offset to the left one via `SetYOffset`; a resize
recomputes both pane sizes (`width/2 - 4` by `height - 6`), creating the
viewports on the first resize, and re-renders the content. -/
def update (m : Model) : Msg → Model
  | .key key =>
    match key with
    | .esc | .q | .n | .nCap => { m with cancelled := true }
    | .y | .yCap | .enter => { m with confirmed := true }
    | .up | .k | .down | .j | .pgup | .ctrlB | .pgdn | .ctrlF =>
      let lv := m.leftViewport.update key
      { m with
        leftViewport := lv
        rightViewport := m.rightViewport.setYOffset lv.yOffset }
    | _ => m
  | .resize w hgt =>
    let headerHeight : Int := 3
    let footerHeight : Int := 3
    let viewportWidth := Int.tdiv w 2 - 4
    let viewportHeight := hgt - headerHeight - footerHeight
    if !m.ready then
      updateViewportContent
        { m with
          width := w
          height := hgt
          ready := true
          leftViewport := Viewport.new viewportWidth viewportHeight
          rightViewport := Viewport.new viewportWidth viewportHeight }
    else
      updateViewportContent
        { m with
          width := w
          height := hgt
          leftViewport := { m.leftViewport with width := viewportWidth, height := viewportHeight }
          rightViewport := { m.rightViewport with width := viewportWidth, height := viewportHeight } }

end difftui

/-! ## Secret store collaborator: pkg/keyvault/client.go -/

namespace keyvault

/-- The `SecretVersion` struct.  Azure SDK timestamps (`*time.Time`) are
modelled as `Option Int` (absolute instants; `After` is `>`). -/
structure SecretVersion where
  version : GoStr
  value : GoStr
  enabled : Bool
  createdOn : Option Int
  updatedOn : Option Int
  expiresOn : Option Int
  tags : List (GoStr × GoStr)
deriving DecidableEq

instance : Inhabited SecretVersion :=
  ⟨⟨[], [], false, none, none, none, []⟩⟩

/-- The comparator closure passed to `sort.Slice` in `ListSecretVersions`:
an entry with no `CreatedOn` is never less than anything; anything is less
than an entry with no `CreatedOn`; otherwise later creation comes first. -/
def versionLess (a b : SecretVersion) : Bool :=
  match a.createdOn with
  | none => false
  | some ta =>
    match b.createdOn with
    | none => true
    | some tb => ta > tb

/-- What `sort.Slice(versions, less)` guarantees about the final slice: it
is a permutation of the fetched slice that is sorted with respect to the
comparator (no element is less than an element before it).  `sort.Slice` is
documented as NOT stable (`sort.SliceStable` exists separately and is not
used), so nothing beyond this is guaranteed. -/
def sortSliceResult (fetched sorted : List SecretVersion) : Prop :=
  sorted.Perm fetched ∧ sorted.Pairwise fun a b => versionLess b a = false

end keyvault

/-! ## BrowseSession: internal/tui/model.go -/

namespace tui

/-- The browse `Model` struct (internal/tui/model.go). -/
structure Model where
  versions : List keyvault.SecretVersion
  secretName : GoStr
  currentIdx : Nat
  viewport : Viewport NumberedLine
  ready : Bool
  width : Int
  height : Int
deriving DecidableEq

/-- `NewModel(versions, secretName)`: cursor at 0, everything else zero. -/
def NewModel (versions : List keyvault.SecretVersion) (secretName : GoStr) : Model :=
  ⟨versions, secretName, 0, Viewport.new 0 0, false, 0, 0⟩

/-- The wrap width `updateViewportContent` computes:
`viewport.Width - 8`, floored at 20. -/
def effectiveWrapWidth (v : Viewport NumberedLine) : Int :=
  let maxWidth := v.width - 8
  if maxWidth < 20 then 20 else maxWidth

/-- `updateViewportContent`: with no versions do nothing; otherwise render
the currently selected version's value (the Go indexing `versions[currentIdx]`
is modelled with `getD`; every reachable state keeps the index in bounds,
see the C9 theorem) and scroll back to the top. -/
def updateViewportContent (m : Model) : Model :=
  if m.versions.length = 0 then m
  else
    let version := m.versions.getD m.currentIdx default
    let wrapped := wrapTextWithLineNumbers version.value (effectiveWrapWidth m.viewport)
    { m with viewport := (m.viewport.setContent wrapped).gotoTop }

/-- `Model.Update`: quit keys end the session; `left`/`h` and `right`/`l`
move the cursor under the bounds guards and re-render; a resize sizes the
viewport to `(width-4) × (height-5)` (creating it when not yet ready) and
re-renders; every other message is handed to the viewport (scrolling). -/
def update (m : Model) : Msg → Model
  | .key key =>
    match key with
    | .esc | .q | .ctrlC => m
    | .left | .h =>
      if m.currentIdx > 0 then
        updateViewportContent { m with currentIdx := m.currentIdx - 1 }
      else m
    | .right | .l =>
      if (m.currentIdx : Int) < (m.versions.length : Int) - 1 then
        updateViewportContent { m with currentIdx := m.currentIdx + 1 }
      else m
    | _ => { m with viewport := m.viewport.update key }
  | .resize w hgt =>
    let footerHeight : Int := 3
    if !m.ready then
      updateViewportContent
        { m with
          width := w
          height := hgt
          ready := true
          viewport := Viewport.new (w - 4) (hgt - footerHeight - 2) }
    else
      updateViewportContent
        { m with
          width := w
          height := hgt
          viewport := { m.viewport with width := w - 4, height := hgt - footerHeight - 2 } }

end tui

/-! ## Edit workflow: `runEdit` (pkg/cmd/edit) -/

namespace edit

/-- The externally observable steps of one `runEdit` invocation, in program
order.  `exitError` is `root.ExitWithError`: it prints to stderr and calls
`os.Exit(1)`, which terminates the process immediately — by the documented
semantics of `os.Exit`, deferred functions are NOT run on that path.
`secureDelete` is the deferred scratch-release (overwrite with random bytes,
sync, remove); it runs when and only when `runEdit` returns normally after
registering the `defer`. -/
inductive EditEvent where
  | createTemp
  | openEditor
  | readFile
  | startReview
  | setSecret
  | secureDelete
  | exitError
deriving DecidableEq

/-- Outcomes of the fallible collaborator calls made by `runEdit`, fixed up
front so the workflow itself is a pure function of them.  `editedContent`
is what `os.ReadFile` returns when it succeeds. -/
structure EditEnv where
  clientOk : Bool
  listOk : Bool
  versions : List keyvault.SecretVersion
  tempCreateOk : Bool
  editorOk : Bool
  readOk : Bool
  editedContent : GoStr
  reviewRunOk : Bool
  reviewConfirmed : Bool
  setSecretOk : Bool
deriving DecidableEq

/-- The event trace of `runEdit` (pkg/cmd/edit), following the source line
by line.  After `createSecureTempFile` succeeds the cleanup is registered
with `defer`, so: paths that leave via `return` end with `secureDelete`,
while paths that leave via `root.ExitWithError` (which calls `os.Exit(1)`)
end with `exitError` and no `secureDelete` — `os.Exit` skips deferred
functions.  The latest version is `versions[0]`. -/
def runEdit (env : EditEnv) : List EditEvent :=
  if !env.clientOk then [.exitError]
  else if !env.listOk then [.exitError]
  else if env.versions.length = 0 then [.exitError]
  else if !env.tempCreateOk then [.exitError]
  else
    .createTemp ::
      .openEditor ::
        if !env.editorOk then [.exitError]
        else
          .readFile ::
            if !env.readOk then [.exitError]
            else if env.editedContent = (env.versions.headD default).value then
              [.secureDelete]
            else
              .startReview ::
                if !env.reviewRunOk then [.exitError]
                else if !env.reviewConfirmed then [.secureDelete]
                else
                  .setSecret ::
                    if !env.setSecretOk then [.exitError]
                    else [.secureDelete]

end edit

/-! ## Sanity checks and basic lemmas for the embedded definitions -/

example : splitLines (bytes "secret1\n") = [bytes "secret1", []] := by decide
example : (Compare (bytes "secret1\n") (bytes "secret2\n")).1 =
    [⟨1, bytes "secret1", true, false⟩, ⟨2, [], false, false⟩] := by decide
example : (Compare (bytes "secret1\n") (bytes "secret2\n")).2 =
    [⟨1, bytes "secret2", true, false⟩, ⟨2, [], false, true⟩] := by decide

example : wrapLine (bytes "hello world, hi") 6 20 =
    .ok [bytes "hello", bytes "world,", bytes "hi"] := by decide
example : wrapLine (bytes "aaaaaaaaaaaaaa") 6 20 =
    .ok [bytes "aaaaaa", bytes "aaaaaa", bytes "aa"] := by decide
example : wrapLine (bytes "ab") 0 5 = .fuelOut := by decide
example : wrapLine (bytes "ab") (-1) 5 = .panicked := by decide

/-- The break-point search stays in `[1, width]` whenever `1 ≤ width`. -/
theorem findBreak_go_bounds (remaining : GoStr) (width : Int) (hw : 1 ≤ width) :
    ∀ (steps : Nat) (i : Int), i ≤ width →
      1 ≤ findBreak.go remaining width i steps ∧ findBreak.go remaining width i steps ≤ width := by
  intro steps
  induction steps with
  | zero => intro i _; exact ⟨hw, le_refl width⟩
  | succ k ih =>
    intro i hi
    show 1 ≤ findBreak.go remaining width i (k + 1) ∧ _
    rw [findBreak.go]
    by_cases hg : i > width - 20 ∧ i > 0
    · by_cases hsp : i < (remaining.length : Int) ∧ remaining.getD i.toNat 0 = 32
      · simp only [hg, hsp, if_true]
        exact ⟨hg.2, hi⟩
      · simp only [hg, hsp, if_true, if_false]
        exact ih (i - 1) (by omega)
    · simp only [hg, if_false]
      exact ⟨hw, le_refl width⟩

/-- `findBreak` stays in `[1, width]` whenever `1 ≤ width`. -/
theorem findBreak_bounds (remaining : GoStr) (width : Int) (hw : 1 ≤ width) :
    1 ≤ findBreak remaining width ∧ findBreak remaining width ≤ width :=
  findBreak_go_bounds remaining width hw 20 width (le_refl width)

/-- Trimming leading spaces never lengthens a string. -/
theorem trimLeftSpaces_length_le (l : GoStr) : (trimLeftSpaces l).length ≤ l.length := by
  induction l with
  | nil => exact Nat.le_refl 0
  | cons b bs ih =>
    rw [trimLeftSpaces]
    by_cases hb : b = 32
    · simp only [hb, if_true]
      exact Nat.le_succ_of_le ih
    · simp only [hb, if_false]
      exact Nat.le_refl _

/-- For a positive width the wrap loop terminates: any fuel exceeding the
remaining length yields a normal result (each iteration removes at least one
byte). -/
theorem wrapLineLoop_pos_ok (width : Int) (hw : 1 ≤ width) :
    ∀ (fuel : Nat) (remaining : GoStr), remaining.length < fuel →
      ∃ segs, wrapLineLoop width fuel remaining = .ok segs := by
  intro fuel
  induction fuel with
  | zero => intro remaining h; exact absurd h (Nat.not_lt_zero _)
  | succ n ih =>
    intro remaining h
    by_cases h0 : remaining = []
    · exact ⟨[], by simp [wrapLineLoop, h0]⟩
    · by_cases h1 : (remaining.length : Int) ≤ width
      · exact ⟨[remaining], by simp [wrapLineLoop, h0, h1]⟩
      · have hbp0 := findBreak_bounds remaining width hw
        set bp0 := findBreak remaining width with hb0def
        set bp : Int := if bp0 ≥ (remaining.length : Int) then width else bp0 with hbdef
        have hbp : 1 ≤ bp ∧ bp ≤ width := by
          rw [hbdef]
          by_cases hc : bp0 ≥ (remaining.length : Int)
          · simp only [hc, if_true]; exact ⟨hw, le_refl width⟩
          · simp only [hc, if_false]; exact hbp0
        have hnneg : ¬ bp < 0 := by omega
        have htn : 1 ≤ bp.toNat := by omega
        have hshrink : (trimLeftSpaces (remaining.drop bp.toNat)).length < remaining.length := by
          have h2 := trimLeftSpaces_length_le (remaining.drop bp.toNat)
          rw [List.length_drop] at h2
          have hpos : 0 < remaining.length := by
            cases remaining with
            | nil => exact absurd rfl h0
            | cons a l => exact Nat.succ_pos _
          omega
        obtain ⟨segs, hs⟩ := ih (trimLeftSpaces (remaining.drop bp.toNat)) (by omega)
        refine ⟨remaining.take bp.toNat :: segs, ?_⟩
        rw [wrapLineLoop]
        simp only [h0, h1, if_false, ← hb0def, ← hbdef, hnneg, hs]

/-- For a positive width, `wrapLine` with fuel `len(line) + 1` returns
normally: the loop terminates within that many iterations. -/
theorem wrapLine_pos_ok (line : GoStr) (width : Int) (hw : 1 ≤ width) :
    ∃ segs, wrapLine line width (line.length + 1) = .ok segs := by
  by_cases hfit : (line.length : Int) ≤ width
  · exact ⟨[line], by simp [wrapLine, hfit]⟩
  · obtain ⟨segs, hs⟩ := wrapLineLoop_pos_ok width hw (line.length + 1) line (Nat.lt_succ_self _)
    exact ⟨segs, by simp [wrapLine, hfit, hs]⟩

example : wrapTextWithLineNumbers (bytes "hi\n\nthere") 10 =
    [(some 1, bytes "hi"), (some 2, []), (some 3, bytes "there")] := by decide
example : wrapTextWithLineNumbers (bytes "aaaabb") (-7) =
    wrapTextWithLineNumbers (bytes "aaaabb") 40 := by decide

/-! ## Theorems about the diff engine -/

/-- Positional access into the two slices built by `computeDiff`. -/
theorem computeDiff_getD (o n : List GoStr) (i : Nat) (h : i < max o.length n.length) :
    (computeDiff o n).1.getD i default = (computeDiffAt o n i).1 ∧
    (computeDiff o n).2.getD i default = (computeDiffAt o n i).2 := by
  unfold computeDiff
  constructor <;>
    simp [List.getD_eq_getElem?_getD, List.getElem?_map, List.getElem?_range, h]

/-- Claim C10 (confirmed): `computeDiff` returns slices of equal length
`max(len(oldLines), len(newLines))`, and at every position the entry's line
number is `i+1` on a side whose input still has an `i`-th line and `0` (the
placeholder) on a side that is exhausted. -/
theorem computeDiff_shape (o n : List GoStr) :
    (computeDiff o n).1.length = max o.length n.length ∧
    (computeDiff o n).2.length = max o.length n.length ∧
    ∀ i, i < max o.length n.length →
      (((computeDiff o n).1.getD i default).lineNum = if i < o.length then i + 1 else 0) ∧
      (((computeDiff o n).2.getD i default).lineNum = if i < n.length then i + 1 else 0) := by
  refine ⟨by simp [computeDiff], by simp [computeDiff], ?_⟩
  intro i h
  obtain ⟨h1, h2⟩ := computeDiff_getD o n i h
  rw [h1, h2]
  unfold computeDiffAt
  constructor
  · by_cases ho : i < o.length <;> simp [ho]
  · by_cases hn : i < n.length <;> simp [hn]

/-- Witness for C10 at `old = ["a"]`, `new = ["a", "b"]`, position 1. -/
theorem computeDiff_shape_witness :
    (computeDiff [bytes "a"] [bytes "a", bytes "b"]).1.length = 2 ∧
    (computeDiff [bytes "a"] [bytes "a", bytes "b"]).2.length = 2 ∧
    (((computeDiff [bytes "a"] [bytes "a", bytes "b"]).1.getD 1 default).lineNum = 0) ∧
    (((computeDiff [bytes "a"] [bytes "a", bytes "b"]).2.getD 1 default).lineNum = 2) := by
  obtain ⟨h1, h2, h3⟩ := computeDiff_shape [bytes "a"] [bytes "a", bytes "b"]
  obtain ⟨h4, h5⟩ := h3 1 (by decide)
  exact ⟨h1, h2, by rw [h4]; decide, by rw [h5]; decide⟩

/-- Claim C4 (confirmed): when both sides have an `i`-th line and the lines
differ, the left entry is classified Removed and the right entry Changed
when the old line is non-empty, Added when it is empty. -/
theorem computeDiff_changed (o n : List GoStr) (i : Nat)
    (ho : i < o.length) (hn : i < n.length)
    (hne : o.getD i [] ≠ n.getD i []) :
    leftClass ((computeDiff o n).1.getD i default) = .removed ∧
    rightClass ((computeDiff o n).2.getD i default) =
      (if o.getD i [] = [] then .added else .changed) := by
  obtain ⟨h1, h2⟩ := computeDiff_getD o n i (by omega)
  rw [h1, h2]
  unfold computeDiffAt
  simp only [List.getD_eq_getElem?_getD] at hne
  simp only [ho, hn, if_true]
  constructor
  · simp [leftClass, hne]
  · by_cases hemp : o[i]?.getD ([] : GoStr) = []
    · simp [rightClass, hemp]
    · simp [rightClass, hemp, hne]

/-- Witness for C4 at `old = ["a"]`, `new = ["b"]`, position 0. -/
theorem computeDiff_changed_witness :
    leftClass ((computeDiff [bytes "a"] [bytes "b"]).1.getD 0 default) = .removed ∧
    rightClass ((computeDiff [bytes "a"] [bytes "b"]).2.getD 0 default) =
      (if ([bytes "a"] : List GoStr).getD 0 [] = [] then .added else .changed) :=
  computeDiff_changed [bytes "a"] [bytes "b"] 0 (by decide) (by decide) (by decide)

/-- Counterexample to claim C3: at `old = ["a", ""]`, `new = ["a"]`,
position 1 has only an old line, yet the left entry is NOT classified
Removed — the empty old line compares equal to the `""` default used for the
exhausted new side, so `isDiff` is false and the row renders as unchanged. -/
theorem computeDiff_removed_cx :
    (computeDiff [bytes "a", []] [bytes "a"]).1.getD 1 default = ⟨2, [], false, false⟩ ∧
    leftClass ((computeDiff [bytes "a", []] [bytes "a"]).1.getD 1 default) = .unchanged ∧
    rightClass ((computeDiff [bytes "a", []] [bytes "a"]).2.getD 1 default) = .placeholder := by
  decide

/-- Claim C3 as amended: when only the new line is present the left entry is
the placeholder and the right entry is classified Added; when only the old
line is present the right entry is the placeholder and the left entry is
classified Removed if the old line is non-empty but Unchanged if it is
empty. -/
theorem computeDiff_one_sided (o n : List GoStr) (i : Nat) :
    (o.length ≤ i → i < n.length →
      (computeDiff o n).1.getD i default = ⟨0, [], false, false⟩ ∧
      leftClass ((computeDiff o n).1.getD i default) = .placeholder ∧
      rightClass ((computeDiff o n).2.getD i default) = .added) ∧
    (n.length ≤ i → i < o.length →
      (computeDiff o n).2.getD i default = ⟨0, [], false, false⟩ ∧
      rightClass ((computeDiff o n).2.getD i default) = .placeholder ∧
      leftClass ((computeDiff o n).1.getD i default) =
        (if o.getD i [] = [] then .unchanged else .removed)) := by
  constructor
  · intro ho hn
    obtain ⟨h1, h2⟩ := computeDiff_getD o n i (by omega)
    rw [h1, h2]
    unfold computeDiffAt
    have ho2 : ¬ i < o.length := by omega
    have hdef : o.getD i [] = [] := List.getD_eq_default _ _ ho
    simp only [List.getD_eq_getElem?_getD] at hdef
    simp [ho2, hn, leftClass, rightClass, hdef]
  · intro hn ho
    obtain ⟨h1, h2⟩ := computeDiff_getD o n i (by omega)
    rw [h1, h2]
    unfold computeDiffAt
    have hn2 : ¬ i < n.length := by omega
    have hdef : n.getD i [] = [] := List.getD_eq_default _ _ hn
    simp only [List.getD_eq_getElem?_getD] at hdef ⊢
    by_cases hemp : o[i]?.getD ([] : GoStr) = []
    · simp [ho, hn2, leftClass, rightClass, hdef, hemp]
    · simp [ho, hn2, leftClass, rightClass, hdef, hemp]

/-- Witness for the amended C3: position 1 of `(["a"], ["a","b"])` (old
exhausted) and of `(["a","b"], ["a"])` (new exhausted, non-empty old). -/
theorem computeDiff_one_sided_witness :
    ((computeDiff [bytes "a"] [bytes "a", bytes "b"]).1.getD 1 default = ⟨0, [], false, false⟩ ∧
      leftClass ((computeDiff [bytes "a"] [bytes "a", bytes "b"]).1.getD 1 default) = .placeholder ∧
      rightClass ((computeDiff [bytes "a"] [bytes "a", bytes "b"]).2.getD 1 default) = .added) ∧
    ((computeDiff [bytes "a", bytes "b"] [bytes "a"]).2.getD 1 default = ⟨0, [], false, false⟩ ∧
      rightClass ((computeDiff [bytes "a", bytes "b"] [bytes "a"]).2.getD 1 default) = .placeholder ∧
      leftClass ((computeDiff [bytes "a", bytes "b"] [bytes "a"]).1.getD 1 default) =
        (if ([bytes "a", bytes "b"] : List GoStr).getD 1 [] = [] then DiffClass.unchanged
         else DiffClass.removed)) :=
  ⟨(computeDiff_one_sided [bytes "a"] [bytes "a", bytes "b"] 1).1 (by decide) (by decide),
   (computeDiff_one_sided [bytes "a", bytes "b"] [bytes "a"] 1).2 (by decide) (by decide)⟩

/-- Counterexample to claim C5: on the commit-path scenario the two sides
have TWO entries each, not one — splitting `"secret1\n"` on newlines yields
`["secret1", ""]`, so the trailing empty line produces a second row. -/
theorem compare_scenario_cx :
    (Compare (bytes "secret1\n") (bytes "secret2\n")).1.length = 2 ∧
    (Compare (bytes "secret1\n") (bytes "secret2\n")).2.length = 2 := by
  decide

/-- Claim C5 as amended: `Compare("secret1\n", "secret2\n")` yields
left `[{1,"secret1",Removed}, {2,"",Unchanged}]` and right
`[{1,"secret2",Changed}, {2,"",Added}]` (the second right row is Added
because the empty old line triggers the `oldLine == ""` branch even though
both trailing lines are empty and equal). -/
theorem compare_scenario :
    (Compare (bytes "secret1\n") (bytes "secret2\n")).1 =
      [⟨1, bytes "secret1", true, false⟩, ⟨2, [], false, false⟩] ∧
    (Compare (bytes "secret1\n") (bytes "secret2\n")).2 =
      [⟨1, bytes "secret2", true, false⟩, ⟨2, [], false, true⟩] ∧
    (Compare (bytes "secret1\n") (bytes "secret2\n")).1.map leftClass =
      [.removed, .unchanged] ∧
    (Compare (bytes "secret1\n") (bytes "secret2\n")).2.map rightClass =
      [.changed, .added] := by
  decide

/-! ## Theorems about the wrapping primitive -/

/-- At width 0 the wrap loop makes no progress on `"ab"` (bytes 97, 98): the
break point evaluates to 0, the emitted segment is empty and the remainder
is unchanged, so every fuel is exhausted. -/
theorem wrapLineLoop_stuck_ab : ∀ fuel, wrapLineLoop 0 fuel [97, 98] = .fuelOut := by
  intro fuel
  induction fuel with
  | zero => rfl
  | succ k ih =>
    show (match wrapLineLoop 0 k [97, 98] with
          | .ok segs => WrapOutcome.ok (List.take 0 [97, 98] :: segs)
          | r => r) = .fuelOut
    rw [ih]

/-- Counterexample to claim C6: in the diff-pane renderer the wrapping
primitive `wrapLine` is called directly (no width substitution), and at
width 0 on the line `"ab"` its loop never terminates — it does not fall back
to width 40 and does not return. -/
theorem wrapLine_no_fallback_cx : wrapLineDiverges [97, 98] 0 := by
  intro fuel
  show wrapLine [97, 98] 0 fuel = .fuelOut
  have h : ¬ ((([97, 98] : GoStr).length : Int) ≤ 0) := by decide
  rw [wrapLine, if_neg h]
  exact wrapLineLoop_stuck_ab fuel

/-- Claim C6 as amended: the width-40 fallback for `width ≤ 0` exists only
in the browse renderer's `wrapTextWithLineNumbers` (which therefore always
wraps at a positive width and returns normally); the shared `wrapLine`
primitive itself, called directly by the diff-pane renderer, has no
fallback: at width 0 it can loop forever (counterexample above) and at a
negative width the slice expression panics. -/
theorem wrap_fallback_amended :
    (∀ (text : GoStr) (w : Int), w ≤ 0 →
      wrapTextWithLineNumbers text w = wrapTextWithLineNumbers text 40) ∧
    (∀ (line : GoStr) (w : Int), 1 ≤ w →
      ∃ segs, wrapLine line w (line.length + 1) = .ok segs) ∧
    wrapLine [97, 98] (-1) 5 = .panicked := by
  refine ⟨?_, ?_, by decide⟩
  · intro text w hw
    unfold wrapTextWithLineNumbers
    rw [if_pos hw, if_neg (by norm_num)]
  · intro line w hw
    exact wrapLine_pos_ok line w hw

/-- Witness for the amended C6: the fallback rewrite at width −3 on `"a"`,
and normal termination at width 1 on `"hi"`. -/
theorem wrap_fallback_amended_witness :
    wrapTextWithLineNumbers [97] (-3) = wrapTextWithLineNumbers [97] 40 ∧
    ∃ segs, wrapLine [104, 105] 1 ([104, 105].length + 1) = .ok segs :=
  ⟨wrap_fallback_amended.1 [97] (-3) (by norm_num),
   wrap_fallback_amended.2.1 [104, 105] 1 (by norm_num)⟩

/-! ## Theorems about `ListSecretVersions` ordering -/

/-- The ordering claim C7 makes about two entries appearing in this order in
the result: a timestamp-less entry is never followed by a timestamped one,
and between two timestamped entries the later creation instant comes
first. -/
def newestFirst (a b : keyvault.SecretVersion) : Prop :=
  (a.createdOn = none → b.createdOn = none) ∧
  ∀ ta tb, a.createdOn = some ta → b.createdOn = some tb → tb ≤ ta

/-- A version with a creation timestamp (instant 5). -/
def vStamped : keyvault.SecretVersion := ⟨bytes "v1", bytes "a", true, some 5, none, none, []⟩

/-- A version with no creation timestamp. -/
def vPlain1 : keyvault.SecretVersion := ⟨bytes "v2", bytes "b", true, none, none, none, []⟩

/-- Another version with no creation timestamp. -/
def vPlain2 : keyvault.SecretVersion := ⟨bytes "v3", bytes "c", true, none, none, none, []⟩

/-- Counterexample to claim C7's stability part: `sort.Slice` (explicitly
not stable) only guarantees a comparator-sorted permutation, and for the
fetched list `[vPlain1, vPlain2]` — two timestamp-less entries — the
REVERSED order satisfies everything the code guarantees, so the original
relative order of timestamp-less entries is not preserved in general. -/
theorem listVersions_stability_cx :
    keyvault.sortSliceResult [vPlain1, vPlain2] [vPlain2, vPlain1] ∧
    vPlain1.createdOn = none ∧ vPlain2.createdOn = none ∧
    [vPlain2, vPlain1] ≠ [vPlain1, vPlain2] := by
  refine ⟨⟨by decide, by decide⟩, rfl, rfl, by decide⟩

/-- Claim C7 as amended: the result of `ListSecretVersions`'s sort is a
permutation of the fetched versions in which created-later entries precede
created-earlier ones and every timestamp-less entry comes after all
timestamped ones; the relative order of two timestamp-less entries is NOT
guaranteed (the sort used is unstable). -/
theorem listVersions_sorted (fetched sorted : List keyvault.SecretVersion)
    (h : keyvault.sortSliceResult fetched sorted) :
    sorted.Perm fetched ∧ sorted.Pairwise newestFirst := by
  refine ⟨h.1, List.Pairwise.imp ?_ h.2⟩
  intro a b hab
  constructor
  · intro ha
    cases hb : b.createdOn with
    | none => rfl
    | some tb => simp [keyvault.versionLess, ha, hb] at hab
  · intro ta tb hta htb
    simp [keyvault.versionLess, hta, htb] at hab
    omega

/-- Witness for the amended C7 on the fetched list `[vPlain1, vStamped]`,
correctly sorted to `[vStamped, vPlain1]`. -/
theorem listVersions_sorted_witness :
    keyvault.sortSliceResult [vPlain1, vStamped] [vStamped, vPlain1] ∧
    ([vStamped, vPlain1].Perm [vPlain1, vStamped] ∧
      [vStamped, vPlain1].Pairwise newestFirst) :=
  have h : keyvault.sortSliceResult [vPlain1, vStamped] [vStamped, vPlain1] :=
    ⟨by decide, by decide⟩
  ⟨h, listVersions_sorted [vPlain1, vStamped] [vStamped, vPlain1] h⟩

/-! ## Theorems about the edit workflow -/

/-- Claim C2 (confirmed): when the content read back equals the original
value, `runEdit` prints and returns right after the comparison — the review
session is never started (so no diff is ever computed), `SetSecret` is never
invoked, and the deferred scratch release still runs on this return path. -/
theorem noop_edit_short_circuits (env : edit.EditEnv)
    (hc : env.clientOk = true) (hl : env.listOk = true)
    (hv : env.versions.length ≠ 0) (ht : env.tempCreateOk = true)
    (he : env.editorOk = true) (hr : env.readOk = true)
    (hsame : env.editedContent = (env.versions.headD default).value) :
    edit.runEdit env = [.createTemp, .openEditor, .readFile, .secureDelete] ∧
    edit.EditEvent.startReview ∉ edit.runEdit env ∧
    edit.EditEvent.setSecret ∉ edit.runEdit env := by
  have h : edit.runEdit env = [.createTemp, .openEditor, .readFile, .secureDelete] := by
    unfold edit.runEdit
    simp [hc, hl, hv, ht, he, hr, hsame]
  exact ⟨h, by rw [h]; decide, by rw [h]; decide⟩

/-- The latest version in the concrete runs below: value `"secret1\n"`. -/
def vOrig : keyvault.SecretVersion :=
  ⟨bytes "0123456789abcdef", bytes "secret1\n", true, some 5, none, none, []⟩

/-- A run in which the editor leaves the scratch file unchanged. -/
def envNoop : edit.EditEnv :=
  ⟨true, true, [vOrig], true, true, true, bytes "secret1\n", true, false, true⟩

/-- Witness for C2: the no-op run. -/
theorem noop_edit_short_circuits_witness :
    edit.runEdit envNoop = [.createTemp, .openEditor, .readFile, .secureDelete] ∧
    edit.EditEvent.startReview ∉ edit.runEdit envNoop ∧
    edit.EditEvent.setSecret ∉ edit.runEdit envNoop :=
  noop_edit_short_circuits envNoop rfl rfl (by decide) rfl rfl rfl (by decide)

/-- A run in which launching the external editor fails. -/
def envEditorFail : edit.EditEnv :=
  ⟨true, true, [vOrig], true, false, true, bytes "x", true, true, true⟩

/-- A run in which reading back the edited file fails. -/
def envReadFail : edit.EditEnv :=
  ⟨true, true, [vOrig], true, true, false, bytes "x", true, true, true⟩

/-- A run in which the user cancels the review. -/
def envCancel : edit.EditEnv :=
  ⟨true, true, [vOrig], true, true, true, bytes "secret2\n", true, false, true⟩

/-- A run in which the user confirms and the commit succeeds. -/
def envCommit : edit.EditEnv :=
  ⟨true, true, [vOrig], true, true, true, bytes "secret2\n", true, true, true⟩

/-- Claim C1 fails on the code (code bug): after the scratch file exists,
the editor-launch-failure and read-failure exits go through
`root.ExitWithError`, i.e. `os.Exit(1)`, which terminates the process
without running deferred functions — the deferred `secureDelete` is skipped
and the plaintext scratch file survives un-erased.  The two `return` paths
(no-op edit, cancelled review) and the successful commit do run the
release.  This theorem evaluates all four runs. -/
theorem scratch_release_skipped_on_exit :
    edit.runEdit envEditorFail = [.createTemp, .openEditor, .exitError] ∧
    edit.EditEvent.secureDelete ∉ edit.runEdit envEditorFail ∧
    edit.runEdit envReadFail = [.createTemp, .openEditor, .readFile, .exitError] ∧
    edit.EditEvent.secureDelete ∉ edit.runEdit envReadFail ∧
    edit.runEdit envCancel =
      [.createTemp, .openEditor, .readFile, .startReview, .secureDelete] ∧
    edit.runEdit envCommit =
      [.createTemp, .openEditor, .readFile, .startReview, .setSecret, .secureDelete] := by
  decide

/-! ## Theorems about the review session -/

/-- Claim C8 as amended: after any vertical-scroll input in the review
session, the right pane's offset equals the left pane's offset CLAMPED into
the right pane's own scroll range `[0, maxYOffset]` (that is what
`SetYOffset` does); the two offsets are equal exactly on runs where the left
offset does not exceed the right pane's maximum — in particular whenever the
two panes hold content of equal height. -/
theorem review_scroll_sync (m : difftui.Model) (key : Key)
    (hk : key ∈ difftui.scrollKeys) (_hready : m.ready = true) :
    (difftui.update m (.key key)).rightViewport.yOffset =
      max 0 (min (difftui.update m (.key key)).leftViewport.yOffset
        (difftui.update m (.key key)).rightViewport.maxYOffset) ∧
    (0 ≤ (difftui.update m (.key key)).leftViewport.yOffset →
      (difftui.update m (.key key)).leftViewport.yOffset ≤
        (difftui.update m (.key key)).rightViewport.maxYOffset →
      (difftui.update m (.key key)).rightViewport.yOffset =
        (difftui.update m (.key key)).leftViewport.yOffset) := by
  simp only [difftui.scrollKeys, List.mem_cons, List.not_mem_nil, or_false] at hk
  rcases hk with rfl | rfl | rfl | rfl | rfl | rfl | rfl | rfl <;>
  · constructor
    · simp [difftui.update, Viewport.setYOffset, Viewport.maxYOffset]
    · intro h0 hle
      simp only [difftui.update, Viewport.setYOffset, Viewport.maxYOffset] at hle h0 ⊢
      omega

/-- A review of `"aaaaaaaaaaaaaa"` (one long line) against `"x"`. -/
def reviewDemo0 : difftui.Model :=
  difftui.NewModel (bytes "aaaaaaaaaaaaaa") (bytes "x") (bytes "s")

/-- The demo review after a 40×8 terminal-size message: panes are 16×2, the
wrap width is 6, so the left pane holds 3 wrapped rows and the right pane 1. -/
def reviewDemo1 : difftui.Model := difftui.update reviewDemo0 (.resize 40 8)

/-- The demo review after one `down` scroll. -/
def reviewDemo2 : difftui.Model := difftui.update reviewDemo1 (.key .down)

/-- Counterexample to claim C8: in the ready demo session a single `down`
scroll moves the left pane to offset 1 while the right pane — whose single
content row gives it a maximum offset of 0 — stays at 0: the two vertical
offsets are NOT equal after a vertical-scroll input. -/
theorem review_scroll_sync_cx :
    reviewDemo1.ready = true ∧
    reviewDemo2.leftViewport.yOffset = 1 ∧
    reviewDemo2.rightViewport.yOffset = 0 := by
  decide

/-- Witness for the amended C8: the `down` scroll on the demo session. -/
theorem review_scroll_sync_witness :
    (difftui.update reviewDemo1 (.key .down)).rightViewport.yOffset =
      max 0 (min (difftui.update reviewDemo1 (.key .down)).leftViewport.yOffset
        (difftui.update reviewDemo1 (.key .down)).rightViewport.maxYOffset) ∧
    (0 ≤ (difftui.update reviewDemo1 (.key .down)).leftViewport.yOffset →
      (difftui.update reviewDemo1 (.key .down)).leftViewport.yOffset ≤
        (difftui.update reviewDemo1 (.key .down)).rightViewport.maxYOffset →
      (difftui.update reviewDemo1 (.key .down)).rightViewport.yOffset =
        (difftui.update reviewDemo1 (.key .down)).leftViewport.yOffset) :=
  review_scroll_sync reviewDemo1 .down (by decide) (by decide)

/-! ## Theorems about the browse session -/

/-- `SetContent` installs exactly the given lines. -/
theorem setContent_lines {α : Type} (v : Viewport α) (ls : List α) :
    (v.setContent ls).lines = ls := by
  unfold Viewport.setContent Viewport.gotoBottom Viewport.setYOffset
  split <;> rfl

/-- `GotoTop` scrolls to offset 0 (the maximum offset is never negative). -/
theorem gotoTop_yOffset {α : Type} (v : Viewport α) : v.gotoTop.yOffset = 0 := by
  simp only [Viewport.gotoTop, Viewport.setYOffset, Viewport.maxYOffset]
  omega

/-- The browse re-render touches only the viewport. -/
theorem tui_uvc_preserves (m : tui.Model) :
    (tui.updateViewportContent m).currentIdx = m.currentIdx ∧
    (tui.updateViewportContent m).versions = m.versions := by
  unfold tui.updateViewportContent
  by_cases h : m.versions.length = 0 <;> simp [h]

/-- Every browse event leaves the version list unchanged and moves the
cursor by at most one, only under the source's guards. -/
theorem tui_update_effect (m : tui.Model) (msg : Msg) :
    (tui.update m msg).versions = m.versions ∧
    ((tui.update m msg).currentIdx = m.currentIdx ∨
      ((tui.update m msg).currentIdx = m.currentIdx - 1 ∧ 0 < m.currentIdx) ∨
      ((tui.update m msg).currentIdx = m.currentIdx + 1 ∧
        (m.currentIdx : Int) < (m.versions.length : Int) - 1)) := by
  cases msg with
  | resize w hgt =>
    by_cases hr : m.ready = true
    · simp only [tui.update, hr]
      exact ⟨(tui_uvc_preserves _).2, Or.inl (tui_uvc_preserves _).1⟩
    · have hr2 : m.ready = false := by
        cases hb : m.ready
        · rfl
        · exact absurd hb hr
      simp only [tui.update, hr2]
      exact ⟨(tui_uvc_preserves _).2, Or.inl (tui_uvc_preserves _).1⟩
  | key key =>
    cases key with
    | left =>
      by_cases h : m.currentIdx > 0
      · simp only [tui.update, if_pos h]
        exact ⟨(tui_uvc_preserves _).2, Or.inr (Or.inl ⟨(tui_uvc_preserves _).1, h⟩)⟩
      · simp [tui.update, if_neg h]
    | h =>
      by_cases h : m.currentIdx > 0
      · simp only [tui.update, if_pos h]
        exact ⟨(tui_uvc_preserves _).2, Or.inr (Or.inl ⟨(tui_uvc_preserves _).1, h⟩)⟩
      · simp [tui.update, if_neg h]
    | right =>
      by_cases h : (m.currentIdx : Int) < (m.versions.length : Int) - 1
      · simp only [tui.update, if_pos h]
        exact ⟨(tui_uvc_preserves _).2, Or.inr (Or.inr ⟨(tui_uvc_preserves _).1, h⟩)⟩
      · simp [tui.update, if_neg h]
    | l =>
      by_cases h : (m.currentIdx : Int) < (m.versions.length : Int) - 1
      · simp only [tui.update, if_pos h]
        exact ⟨(tui_uvc_preserves _).2, Or.inr (Or.inr ⟨(tui_uvc_preserves _).1, h⟩)⟩
      · simp [tui.update, if_neg h]
    | esc => exact ⟨rfl, Or.inl rfl⟩
    | q => exact ⟨rfl, Or.inl rfl⟩
    | ctrlC => exact ⟨rfl, Or.inl rfl⟩
    | up => exact ⟨rfl, Or.inl rfl⟩
    | k => exact ⟨rfl, Or.inl rfl⟩
    | down => exact ⟨rfl, Or.inl rfl⟩
    | j => exact ⟨rfl, Or.inl rfl⟩
    | pgup => exact ⟨rfl, Or.inl rfl⟩
    | pgdn => exact ⟨rfl, Or.inl rfl⟩
    | ctrlB => exact ⟨rfl, Or.inl rfl⟩
    | ctrlF => exact ⟨rfl, Or.inl rfl⟩
    | n => exact ⟨rfl, Or.inl rfl⟩
    | nCap => exact ⟨rfl, Or.inl rfl⟩
    | y => exact ⟨rfl, Or.inl rfl⟩
    | yCap => exact ⟨rfl, Or.inl rfl⟩
    | enter => exact ⟨rfl, Or.inl rfl⟩
    | other => exact ⟨rfl, Or.inl rfl⟩

/-- Claim C9 (confirmed): browse cursor movement is clamped to
`[0, versionCount)` — every processed message preserves the bound, a
previous-version input at index 0 and a next-version input at the last index
leave the cursor unchanged, and every accepted move re-renders the pane with
the newly selected version's wrapped content, scrolled to the top. -/
theorem browse_cursor_clamped (m : tui.Model) :
    (∀ msg : Msg, m.currentIdx < m.versions.length →
      (tui.update m msg).currentIdx < (tui.update m msg).versions.length) ∧
    (m.currentIdx = 0 → tui.update m (.key .left) = m) ∧
    ((m.currentIdx : Int) = (m.versions.length : Int) - 1 →
      tui.update m (.key .right) = m) ∧
    (0 < m.currentIdx → m.currentIdx < m.versions.length →
      (tui.update m (.key .left)).currentIdx = m.currentIdx - 1 ∧
      (tui.update m (.key .left)).viewport.lines =
        wrapTextWithLineNumbers ((m.versions.getD (m.currentIdx - 1) default).value)
          (tui.effectiveWrapWidth m.viewport) ∧
      (tui.update m (.key .left)).viewport.yOffset = 0) ∧
    ((m.currentIdx : Int) < (m.versions.length : Int) - 1 →
      (tui.update m (.key .right)).currentIdx = m.currentIdx + 1 ∧
      (tui.update m (.key .right)).viewport.lines =
        wrapTextWithLineNumbers ((m.versions.getD (m.currentIdx + 1) default).value)
          (tui.effectiveWrapWidth m.viewport) ∧
      (tui.update m (.key .right)).viewport.yOffset = 0) := by
  refine ⟨?_, ?_, ?_, ?_, ?_⟩
  · intro msg hlt
    obtain ⟨hv, hidx⟩ := tui_update_effect m msg
    rw [hv]
    rcases hidx with h | ⟨h, hg⟩ | ⟨h, hg⟩ <;> omega
  · intro h0
    simp only [tui.update]
    rw [if_neg (by omega)]
  · intro hlast
    simp only [tui.update]
    rw [if_neg (by omega)]
  · intro h1 h2
    simp only [tui.update]
    rw [if_pos h1]
    unfold tui.updateViewportContent
    rw [if_neg (by show ¬ m.versions.length = 0; omega)]
    refine ⟨rfl, ?_, ?_⟩
    · simp only [Viewport.gotoTop, Viewport.setYOffset]
      exact setContent_lines _ _
    · exact gotoTop_yOffset _
  · intro hlt
    simp only [tui.update]
    rw [if_pos hlt]
    unfold tui.updateViewportContent
    rw [if_neg (by show ¬ m.versions.length = 0; omega)]
    refine ⟨rfl, ?_, ?_⟩
    · simp only [Viewport.gotoTop, Viewport.setYOffset]
      exact setContent_lines _ _
    · exact gotoTop_yOffset _

/-- First browse demo version. -/
def bVer1 : keyvault.SecretVersion := ⟨bytes "id1", bytes "one", true, some 9, none, none, []⟩

/-- Second browse demo version. -/
def bVer2 : keyvault.SecretVersion := ⟨bytes "id2", bytes "two", true, some 3, none, none, []⟩

/-- A fresh browse session over two versions (cursor at 0). -/
def browseDemo : tui.Model := tui.NewModel [bVer1, bVer2] (bytes "s")

/-- Witness for C9 on the two-version demo session: a next-version input
stays in bounds, re-renders with version 2's content at the top, and a
previous-version input at index 0 is a no-op. -/
theorem browse_cursor_clamped_witness :
    (tui.update browseDemo (.key .right)).currentIdx <
      (tui.update browseDemo (.key .right)).versions.length ∧
    tui.update browseDemo (.key .left) = browseDemo ∧
    ((tui.update browseDemo (.key .right)).currentIdx = browseDemo.currentIdx + 1 ∧
      (tui.update browseDemo (.key .right)).viewport.lines =
        wrapTextWithLineNumbers
          ((browseDemo.versions.getD (browseDemo.currentIdx + 1) default).value)
          (tui.effectiveWrapWidth browseDemo.viewport) ∧
      (tui.update browseDemo (.key .right)).viewport.yOffset = 0) :=
  have h := browse_cursor_clamped browseDemo
  ⟨h.1 (.key .right) (by decide), h.2.1 rfl, h.2.2.2.2 (by decide)⟩
